import Mathlib

/-!
Shallow embedding of the career-assistant pipeline of this repository
(`src/main.py`, `src/crew_setup.py`, `src/app.py`).

Python values flowing between the stages are modelled by `PyVal`; Python
exceptions are modelled by branching on outcome-typed environment records;
the external collaborators (the text-generation service, `json.loads`
inside the guidance stage, pydantic's JSON decoding) are modelled by
outcome parameters threaded through the embedded functions.
-/

/-- A Python/JSON value as it flows through the tools and the handler:
`none` is Python `None`, `dict` carries the insertion-ordered pairs of a
`dict` (duplicate keys: last one wins, as in `json.loads`), `other` stands
for numbers and booleans, values none of the embedded code inspects. -/
inductive PyVal where
  | none : PyVal
  | str : String → PyVal
  | list : List PyVal → PyVal
  | dict : List (String × PyVal) → PyVal
  | other : PyVal

/-- Python `d[k]` for the embedded dict: the value of the last pair whose key is
`k` (Python dict semantics), if any. -/
def pyLookup (d : List (String × PyVal)) (k : String) : Option PyVal :=
  ((d.filter (fun kv => kv.fst == k)).getLast?).map (fun kv => kv.snd)

/-- Python `d.get(k, dflt)`. -/
def pyGet (d : List (String × PyVal)) (k : String) (dflt : PyVal) : PyVal :=
  (pyLookup d k).getD dflt

/-- The uploaded document as PyPDF2 sees it in `ResumeProcessingTool._run`
(crew_setup.py:29-32): either constructing the reader (or reading a page)
raises — `unreadable`, carrying the exception text — or it yields pages
whose `extract_text()` returns either text or `None`. -/
inductive Document where
  | unreadable : String → Document
  | pages : List (Option String) → Document

/-- The extraction loop of `ResumeProcessingTool._run` (crew_setup.py:31-32):
`extracted_text += reader.pages[i].extract_text() or ""` over the pages in
order, the empty string standing in for a page with no text. -/
def concatPages (ps : List (Option String)) : String :=
  ps.foldl (fun acc p => acc ++ p.getD "") ""

/-- Removes the maximal run of trailing whitespace (helper for `pyStrip`). -/
def stripBack : List Char → List Char
  | [] => []
  | a :: t =>
    match stripBack t with
    | [] => if a.isWhitespace then [] else [a]
    | b :: u => a :: b :: u

/-- Python `str.strip()` on the character list: leading and trailing
whitespace removed. -/
def pyStrip (l : List Char) : List Char :=
  stripBack (l.dropWhile Char.isWhitespace)

/-- Python `str.lower()`, character-wise; the vocabulary and every compared
skill in the sources are ASCII, where the two agree. -/
def lowerChars (l : List Char) : List Char := l.map Char.toLower

/-- Python `str.lower()` on a `String`. -/
def lowerString (s : String) : String := String.mk (lowerChars s.data)

/-- The fixed fallback vocabulary `common_skills` (crew_setup.py:86-93),
copied verbatim. -/
def common_skills : List String :=
  ["Python", "Java", "C++", "JavaScript", "React", "Angular", "Vue.js",
   "SQL", "NoSQL", "MongoDB", "PostgreSQL", "MySQL", "Docker", "Kubernetes",
   "AWS", "Azure", "GCP", "Machine Learning", "Deep Learning", "Data Analysis",
   "Pandas", "NumPy", "Scikit-learn", "TensorFlow", "PyTorch", "Git", "API",
   "FastAPI", "Streamlit", "LangChain", "CrewAI", "Communication", "Teamwork",
   "Project Management", "Data Science", "Web Development", "Cloud Computing"]

/-- Embeds `skill.lower() in text_lower` (crew_setup.py:97): contiguous-substring
containment of the lower-cased skill in the lower-cased text. -/
def containsSkill (text sk : String) : Bool :=
  decide (lowerChars sk.data <:+: lowerChars text.data)

/-- Python string comparison `a <= b`: lexicographic by code point. -/
def charsLe : List Char → List Char → Bool
  | [], _ => true
  | _ :: _, [] => false
  | a :: xs, b :: ys =>
    if a.toNat < b.toNat then true
    else if b.toNat < a.toNat then false
    else charsLe xs ys

/-- Python `a <= b` on strings (the order `sorted` uses). -/
def pyStrLe (a b : String) : Prop := charsLe a.data b.data = true

instance : DecidableRel pyStrLe :=
  fun a b => inferInstanceAs (Decidable (charsLe a.data b.data = true))

/-- Embeds `sorted(list(set(found_skills)))` over the vocabulary scan
(crew_setup.py:94-99). `insertionSort` mirrors Python `sorted`: after `set`
the elements are distinct, so both produce the unique sorted list of the
distinct found skills under Python's code-point string order `pyStrLe`. -/
def fallbackSkills (text : String) : List String :=
  List.insertionSort pyStrLe ((common_skills.filter (containsSkill text)).dedup)

/-- The fallback return of `ResumeProcessingTool._run` (crew_setup.py:101-106). -/
def runFallback (text : String) : List (String × PyVal) :=
  [("status", PyVal.str "partial_success"),
   ("extracted_text", PyVal.str text),
   ("skills", PyVal.list ((fallbackSkills text).map PyVal.str)),
   ("resume_summary", PyVal.str "LLM extraction failed, basic skills extracted.")]

/-- The primary-path return of `ResumeProcessingTool._run`
(crew_setup.py:72-81), for a generation response that decoded to the dict
`d`: `parsed_llm_output.get("skills", [])` and
`parsed_llm_output.get("summary", "No summary provided.")` taken verbatim. -/
def primaryDict (text : String) (d : List (String × PyVal)) : List (String × PyVal) :=
  [("status", PyVal.str "success"),
   ("extracted_text", PyVal.str text),
   ("skills", pyGet d "skills" (PyVal.list [])),
   ("resume_summary", pyGet d "summary" (PyVal.str "No summary provided."))]

/-- The outcome of the tool's generation call and of `json.loads` on its
content (crew_setup.py:58-70): `callOk = false` models `completion` raising;
`parsed = none` models `json.loads` raising `JSONDecodeError`; otherwise
`parsed` holds the decoded value — `.get` then raises `AttributeError`
unless it is a dict, landing in the same `except` block as the other two
failures. -/
structure GenEnv where
  callOk : Bool
  parsed : Option PyVal

/-- Is the decoded generation response a Python dict? -/
def isDictVal : Option PyVal → Bool
  | some (PyVal.dict _) => true
  | _ => false

/-- Python `len()` support within the modelled value universe: strings,
lists and dicts are sized; `None`, numbers and booleans raise `TypeError`. -/
def pyHasLen : PyVal → Bool
  | PyVal.str _ => true
  | PyVal.list _ => true
  | PyVal.dict _ => true
  | _ => false

/-- The LLM phase of `ResumeProcessingTool._run` (crew_setup.py:41-106):
any exception in the `try` block falls into the keyword fallback — a call
failure, undecodable JSON, a decoded value without `.get`, or the
`len(found_skills)` logging call at crew_setup.py:75 raising `TypeError`
because the dict's `skills` value is not sized (null/number/bool). A
decoded dict with a sized `skills` value takes the primary path, with
`.get` defaults covering missing keys. -/
def resumeLlmPhase (text : String) (gen : GenEnv) : List (String × PyVal) :=
  if gen.callOk then
    match gen.parsed with
    | some (PyVal.dict d) =>
      if pyHasLen (pyGet d "skills" (PyVal.list [])) then primaryDict text d
      else runFallback text
    | _ => runFallback text
  else runFallback text

/-- The error return of `ResumeProcessingTool._run` (crew_setup.py:37).
Note: it has no "status" key. -/
def pdfErrorDict (msg : String) : List (String × PyVal) :=
  [("error", PyVal.str ("Failed to read or process PDF: " ++ msg)),
   ("extracted_text", PyVal.str ""),
   ("skills", PyVal.list [])]

/-- Embeds `ResumeProcessingTool._run` (crew_setup.py:26-106): page extraction,
the whitespace-only check (`if not extracted_text.strip()` raises the
`ValueError` caught by the same `except` as a read failure), then the
LLM phase. -/
def ResumeProcessingTool.run (doc : Document) (gen : GenEnv) : List (String × PyVal) :=
  match doc with
  | Document.unreadable msg => pdfErrorDict msg
  | Document.pages ps =>
    let t := concatPages ps
    if pyStrip t.data = [] then pdfErrorDict "No readable text found in PDF."
    else resumeLlmPhase t gen

/-- A job posting / matched job, with the flattened field names of the
response shape (spec §6, mirrored by `src/app.py:21-27`). -/
structure JobPosting where
  title : String
  company : String
  location : String
  skills_required : List String
  description : String
deriving DecidableEq

/-- The four-field guidance record of the response shape (spec §6,
mirrored by `src/app.py:14-19`). -/
structure CareerGuidance where
  career_path_suggestion : String
  relevant_skills_gap : String
  actionable_steps : String
  potential_job_titles : List String
deriving DecidableEq

/-- Modelled from the spec: `FinalCrewOutput` is imported by `main.py`
(line 22) and used as the validated guidance result (`guidance`,
`matched_jobs`, main.py:212-213), but its definition is not among the
repository's source files. Shape per spec §3 (`GuidanceResult`) and §6. -/
structure FinalCrewOutput where
  guidance : CareerGuidance
  matched_jobs : List JobPosting
deriving DecidableEq

/-- Modelled from the spec: the matching predicate of `JobFilteringTool`
(§4.3) — the lower-cased profile skills intersect the posting's lower-cased
required skills. The tool itself is imported by `main.py` (line 21) and
invoked at main.py:112-113 but is not among the repository's source files. -/
def qualifies (skills : List String) (j : JobPosting) : Bool :=
  j.skills_required.any (fun r => (skills.map lowerString).contains (lowerString r))

/-- Modelled from the spec: `JobFilteringTool._run` (§4.3): keep the
postings whose required skills intersect the profile skills
case-insensitively, preserving catalog order, then cap at the first 7. -/
def JobFilteringTool.run (user_skills : List String) (catalog : List JobPosting) : List JobPosting :=
  (catalog.filter (qualifies user_skills)).take 7

/-- A string value. -/
def asStr : PyVal → Option String
  | PyVal.str s => some s
  | _ => Option.none

/-- All elements as strings, or nothing. -/
def asStrList : List PyVal → Option (List String)
  | [] => some []
  | PyVal.str s :: t => (asStrList t).map (fun r => s :: r)
  | _ => Option.none

/-- A required string field of a dict. -/
def pyStrField (d : List (String × PyVal)) (k : String) : Option String :=
  (pyLookup d k).bind asStr

/-- A required list-of-strings field of a dict. -/
def pyStrListField (d : List (String × PyVal)) (k : String) : Option (List String) :=
  match pyLookup d k with
  | some (PyVal.list xs) => asStrList xs
  | _ => Option.none

/-- Modelled from the spec: pydantic validation of the `CareerGuidance`
part of `FinalCrewOutput.model_validate_json` (main.py:183); the model
class itself is not among the repository's source files. Spec §4.4:
required fields present, `potentialJobTitles` non-empty. -/
def validateGuidance : PyVal → Option CareerGuidance
  | PyVal.dict d =>
    match pyStrField d "career_path_suggestion", pyStrField d "relevant_skills_gap",
          pyStrField d "actionable_steps", pyStrListField d "potential_job_titles" with
    | some cps, some rsg, some acts, some pjt =>
      if pjt = [] then Option.none else some ⟨cps, rsg, acts, pjt⟩
    | _, _, _, _ => Option.none
  | _ => Option.none

/-- Modelled from the spec: pydantic validation of one matched job (shape
per spec §6 and `src/app.py:21-27`). -/
def validateJob : PyVal → Option JobPosting
  | PyVal.dict d =>
    match pyStrField d "title", pyStrField d "company", pyStrField d "location",
          pyStrListField d "skills_required", pyStrField d "description" with
    | some t, some c, some l, some sk, some de => some ⟨t, c, l, sk, de⟩
    | _, _, _, _, _ => Option.none
  | _ => Option.none

/-- Validates every element of the matched-job list. -/
def validateJobs : List PyVal → Option (List JobPosting)
  | [] => some []
  | v :: t =>
    match validateJob v, validateJobs t with
    | some j, some r => some (j :: r)
    | _, _ => Option.none

/-- Modelled from the spec: `FinalCrewOutput.model_validate_json`'s
validation step on the decoded value (main.py:183): a dict with a valid
`guidance` and a list `matched_jobs` of valid jobs. -/
def validateFinalCrewOutput : PyVal → Option FinalCrewOutput
  | PyVal.dict d =>
    match (pyLookup d "guidance").bind validateGuidance, pyLookup d "matched_jobs" with
    | some g, some (PyVal.list xs) =>
      match validateJobs xs with
      | some mj => some ⟨g, mj⟩
      | Option.none => Option.none
    | _, _ => Option.none
  | _ => Option.none

/-- Keeps an initial segment of the list up to (and including) the LAST
closing brace, or nothing when the list has no closing brace: the tail
part of the greedy regex match. -/
def keepThroughLastBrace : List Char → Option (List Char)
  | [] => Option.none
  | a :: t =>
    match keepThroughLastBrace t with
    | some r => some (a :: r)
    | Option.none => if a = '}' then some [a] else Option.none

/-- The characters matched by `re.search(r'{.*}', l, re.DOTALL)`: from the
first opening brace through the last closing brace after it, when such a
pair exists; `[]` when the regex does not match. -/
def extractCore (l : List Char) : List Char :=
  match keepThroughLastBrace (l.dropWhile (fun c => c != '{')) with
  | some r => r
  | Option.none => []

/-- The JSON-extraction step of the guidance handler (main.py:175-178):
`re.search(r'{.*}', full_string_output.strip(), re.DOTALL)`, returning the
matched substring if any. (A match always has a `{` strictly before a `}`,
length at least 2.) -/
def extractBraced (s : String) : Option String :=
  if 2 ≤ (extractCore (pyStrip s.data)).length then
    some (String.mk (extractCore (pyStrip s.data)))
  else Option.none

/-- What `career_guidance_crew.kickoff` returned (main.py:139-167): it
raised (carrying the exception text), returned a string, returned an object
with a string `.raw` attribute, returned the pydantic object directly, or
returned something else (modelled by its `str()` rendering). -/
inductive KickoffResult where
  | raises : String → KickoffResult
  | str : String → KickoffResult
  | rawAttr : String → KickoffResult
  | pydantic : FinalCrewOutput → KickoffResult
  | other : String → KickoffResult

/-- Computes `full_string_output` after main.py:156-167. -/
def fullStringOf : KickoffResult → String
  | KickoffResult.str s => s
  | KickoffResult.rawAttr s => s
  | KickoffResult.pydantic _ => ""
  | KickoffResult.other s => s
  | KickoffResult.raises _ => ""

/-- Computes `final_pydantic_result` after main.py:156-167 (set only when kickoff
returned the pydantic object directly). -/
def directResultOf : KickoffResult → Option FinalCrewOutput
  | KickoffResult.pydantic r => some r
  | _ => Option.none

/-- The externally visible outcome of one request: the JSON success payload
(main.py:208-214) or an `HTTPException` with its status code and detail. -/
inductive Response where
  | success : String → CareerGuidance → List JobPosting → Response
  | error : Nat → String → Response
deriving DecidableEq

/-- Detail of the format-error `HTTPException` (main.py:193-196). -/
def outputFormatDetail (full : String) : String :=
  "CrewAI output format error: The AI did not produce a recognizable JSON output. Raw output: " ++ full

/-- Detail of the schema-error `HTTPException` (main.py:187-190), carrying
the offending extracted substring. -/
def outputSchemaDetail (ext : String) : String :=
  "CrewAI output parsing error: Extracted content was not valid for FinalCrewOutput. Raw output: " ++ ext

/-- Detail of the final-instance-check `HTTPException` (main.py:202-205). -/
def notInstanceDetail (content : String) : String :=
  "CrewAI output format error: Final result is not a FinalCrewOutput instance. This indicates a deeper issue. Raw initial output: " ++ content

/-- The success `JSONResponse` (main.py:208-214): note that `matched_jobs`
is taken from the validated generation output itself. -/
def successResp (r : FinalCrewOutput) : Response :=
  Response.success "Career guidance generated successfully." r.guidance r.matched_jobs

/-- The guidance-output handling of main.py:170-214, from
`final_pydantic_result`/`full_string_output` to the response:
brace-extraction, decoding (`jsonParse` models the JSON decoder inside
`model_validate_json`), validation, and the final instance check. -/
def parsePhase (jsonParse : String → Option PyVal)
    (finalResult : Option FinalCrewOutput) (full : String) : Response :=
  match finalResult with
  | some r => successResp r
  | Option.none =>
    if full = "" then Response.error 500 (notInstanceDetail full)
    else
      match extractBraced full with
      | some ext =>
        match (jsonParse ext).bind validateFinalCrewOutput with
        | some r => successResp r
        | Option.none => Response.error 500 (outputSchemaDetail ext)
      | Option.none => Response.error 500 (outputFormatDetail full)

/-- Detail of the 400 `HTTPException` (main.py:103):
`processed_resume_data.get('error', 'Unknown error during PDF processing.')`
interpolated after the fixed prefix (its value is a string on every
reachable error dict). -/
def resumeFailedDetail (r : List (String × PyVal)) : String :=
  "Resume processing failed: " ++
    (match pyLookup r "error" with
     | some (PyVal.str s) => s
     | _ => "Unknown error during PDF processing.")

/-- Embeds `processed_resume_data.get("status") == "error"` (main.py:102): Python
`==` of an arbitrary value against the string "error". -/
def isErrorStatus (v : PyVal) : Bool :=
  match v with
  | PyVal.str s => s == "error"
  | _ => false

/-- The `skills` value handed to `JobFilteringTool._run` (main.py:105,113).
The tool's own input handling is not among the sources; reachable tool
outputs store `skills` as a list of strings, modelled here by keeping the
string elements of a list value and nothing otherwise. -/
def pyStringsOf : PyVal → List String
  | PyVal.list xs => xs.filterMap asStr
  | _ => []

/-- One request's environment: the outcomes of every external effect the
handler runs into, in order: whether `shutil.copyfileobj` into the fresh
temp file raised, the document as PyPDF2 sees it, the resume tool's
generation-call outcome, the kickoff outcome, and the job catalog behind
`JobFilteringTool`. -/
structure Env where
  copyFails : Bool
  doc : Document
  gen : GenEnv
  kickoff : KickoffResult
  catalog : List JobPosting

/-- What one run leaves behind: the response, whether the CrewAI guidance
call was started, and whether the per-request temp file is still on disk
after the `finally` block (main.py:225-232). -/
structure RunTrace where
  response : Response
  guidanceCalled : Bool
  tempRemains : Bool

/-- Embeds `process_career_request` (main.py:66-232). `tempfile.NamedTemporaryFile
(delete=False)` creates the file on disk before `shutil.copyfileobj` runs
and `pdf_path` is assigned; if the copy raises, the generic handler
(main.py:219-224) returns a 500 (exception text abstracted) and the
`finally` block, seeing `pdf_path` still `None`, deletes nothing. The
string-output recovery branch of main.py:90-100 is unreachable because
`_run` returns a dict. `filtered_jobs_list` only feeds the generation
context (main.py:118-124), whose outcome `env.kickoff` carries. -/
def process_career_request (jsonParse : String → Option PyVal) (env : Env) : RunTrace :=
  if env.copyFails then
    { response := Response.error 500 "Internal server error: the upload could not be copied into the temporary file. Please check server logs for details.",
      guidanceCalled := false, tempRemains := true }
  else
    let processed := ResumeProcessingTool.run env.doc env.gen
    if isErrorStatus (pyGet processed "status" PyVal.none) then
      { response := Response.error 400 (resumeFailedDetail processed),
        guidanceCalled := false, tempRemains := false }
    else
      let user_skills := pyStringsOf (pyGet processed "skills" (PyVal.list []))
      let _filtered := JobFilteringTool.run user_skills env.catalog
      match env.kickoff with
      | KickoffResult.raises msg =>
        { response := Response.error 500 ("CrewAI execution failed: " ++ msg ++ ". Check server logs for detailed LLM errors."),
          guidanceCalled := true, tempRemains := false }
      | k =>
        { response := parsePhase jsonParse (directResultOf k) (fullStringOf k),
          guidanceCalled := true, tempRemains := false }

/-- The `matches` argument the handler itself computed and passed into the
guidance stage (`filtered_jobs_list`, main.py:113). -/
def filteredJobsOf (env : Env) : List JobPosting :=
  JobFilteringTool.run
    (pyStringsOf (pyGet (ResumeProcessingTool.run env.doc env.gen) "skills" (PyVal.list [])))
    env.catalog

/-- The raw response holds a brace-delimited substring: some `{` occurs
strictly before some `}` (exactly when `re.search(r'{.*}', ...)` matches). -/
def hasBracePair (l : List Char) : Prop :=
  ∃ l₁ l₂ l₃, l = l₁ ++ '{' :: (l₂ ++ '}' :: l₃)

/-- A sample posting for concrete runs. -/
def jobA : JobPosting :=
  ⟨"Data Scientist", "Acme", "Remote", ["Python", "Java"], "Analyze data"⟩

/-- A sample guidance record for concrete runs. -/
def guid0 : CareerGuidance :=
  ⟨"Data Science", "Cloud", "Learn AWS",
   ["Data Scientist", "ML Engineer", "Data Analyst", "BI Analyst", "AI Engineer"]⟩

/-- A sample validated guidance result whose echoed `matched_jobs` is `[jobA]`. -/
def fco0 : FinalCrewOutput := ⟨guid0, [jobA]⟩

/-- A run whose resume stage falls back (generation call fails), whose
catalog is empty (so the handler's own `filtered_jobs_list` is empty), and
whose kickoff returns a pydantic result echoing `[jobA]`. -/
def env1 : Env :=
  ⟨false, Document.pages [some "zzz"], ⟨false, Option.none⟩,
   KickoffResult.pydantic fco0, []⟩

/-- A run on an unreadable document whose guidance kickoff then raises. -/
def env8 : Env :=
  ⟨false, Document.unreadable "cannot parse", ⟨true, Option.none⟩,
   KickoffResult.raises "LLM timeout", []⟩

/-- A run where copying the upload into the fresh temp file raises. -/
def env9 : Env :=
  ⟨true, Document.pages [some "zzz"], ⟨false, Option.none⟩,
   KickoffResult.raises "r", []⟩

/-- A run where the copy succeeds and the kickoff output has no JSON. -/
def env9b : Env :=
  ⟨false, Document.pages [some "zzz"], ⟨false, Option.none⟩,
   KickoffResult.str "no json at all", []⟩

/-- A decoded generation output that validates (for concrete runs). -/
def goodGuidancePy : PyVal :=
  PyVal.dict
    [("career_path_suggestion", PyVal.str "a"),
     ("relevant_skills_gap", PyVal.str "b"),
     ("actionable_steps", PyVal.str "c"),
     ("potential_job_titles",
      PyVal.list [PyVal.str "t1", PyVal.str "t2", PyVal.str "t3",
                  PyVal.str "t4", PyVal.str "t5"])]

/-- A decoded `FinalCrewOutput` dict that validates (for concrete runs). -/
def goodFinalPy : PyVal :=
  PyVal.dict [("guidance", goodGuidancePy), ("matched_jobs", PyVal.list [])]

/-- The record `goodFinalPy` validates to. -/
def goodFinal : FinalCrewOutput := ⟨⟨"a", "b", "c", ["t1", "t2", "t3", "t4", "t5"]⟩, []⟩

/-! ### List helper lemmas for the brace-extraction machinery -/

theorem dropWhile_dropWhile_imp (p q : Char → Bool)
    (h : ∀ a, q a = true → p a = true) :
    ∀ l : List Char, (l.dropWhile q).dropWhile p = l.dropWhile p
  | [] => rfl
  | a :: t => by
    cases hq : q a with
    | true =>
      simp only [List.dropWhile_cons, hq, if_true, h a hq]
      exact dropWhile_dropWhile_imp p q h t
    | false => simp [List.dropWhile_cons, hq]

theorem dropWhile_append_all (p : Char → Bool) :
    ∀ l₁ : List Char, (∀ a ∈ l₁, p a = true) →
      ∀ l₂ : List Char, (l₁ ++ l₂).dropWhile p = l₂.dropWhile p
  | [], _, _ => rfl
  | a :: t, h, l₂ => by
    have ha : p a = true := h a (List.mem_cons_self a t)
    simp only [List.cons_append, List.dropWhile_cons, ha, if_true]
    exact dropWhile_append_all p t (fun x hx => h x (List.mem_cons_of_mem a hx)) l₂

theorem stripBack_eq_nil_iff :
    ∀ l : List Char, stripBack l = [] ↔ ∀ c ∈ l, c.isWhitespace = true
  | [] => by simp [stripBack]
  | a :: t => by
    rcases ht : stripBack t with _ | ⟨b, u⟩
    · have hts := (stripBack_eq_nil_iff t).mp ht
      by_cases ha : a.isWhitespace = true
      · simp only [stripBack, ht, ha, if_true]
        constructor
        · intro _ c hc
          rcases List.mem_cons.mp hc with rfl | hc
          · exact ha
          · exact hts c hc
        · intro _; trivial
      · simp only [stripBack, ht, ha, if_false]
        constructor
        · intro hcon; cases hcon
        · intro hall; exact absurd (hall a (List.mem_cons_self a t)) ha
    · simp only [stripBack, ht]
      constructor
      · intro hcon; cases hcon
      · intro hall
        have h2 : stripBack t = [] :=
          (stripBack_eq_nil_iff t).mpr (fun c hc => hall c (List.mem_cons_of_mem a hc))
        rw [ht] at h2; cases h2

theorem dropWhile_stripBack (p : Char → Bool)
    (h : ∀ a : Char, a.isWhitespace = true → p a = true) :
    ∀ l : List Char, (stripBack l).dropWhile p = stripBack (l.dropWhile p)
  | [] => rfl
  | a :: t => by
    rcases ht : stripBack t with _ | ⟨b, u⟩
    · have hts : ∀ c ∈ t, c.isWhitespace = true := (stripBack_eq_nil_iff t).mp ht
      have htp : t.dropWhile p = [] :=
        List.dropWhile_eq_nil_iff.mpr (fun c hc => h c (hts c hc))
      cases ha : a.isWhitespace with
      | true =>
        have hpa : p a = true := h a ha
        simp [stripBack, ht, ha, hpa, htp, List.dropWhile_cons]
      | false =>
        cases hpa : p a with
        | true => simp [stripBack, ht, ha, hpa, htp, List.dropWhile_cons]
        | false => simp [stripBack, ht, ha, hpa, List.dropWhile_cons]
    · cases hpa : p a with
      | false => simp [stripBack, ht, List.dropWhile_cons, hpa]
      | true =>
        have IH := dropWhile_stripBack p h t
        rw [ht] at IH
        have e1 : List.dropWhile p (a :: b :: u) = List.dropWhile p (b :: u) := by
          simp [List.dropWhile_cons, hpa]
        have e2 : List.dropWhile p (a :: t) = List.dropWhile p t := by
          simp [List.dropWhile_cons, hpa]
        simp only [stripBack, ht]
        rw [e1, e2, IH]

theorem keep_eq_none_iff :
    ∀ l : List Char, keepThroughLastBrace l = Option.none ↔ '}' ∉ l
  | [] => by simp [keepThroughLastBrace]
  | a :: t => by
    rcases ht : keepThroughLastBrace t with _ | r
    · have hnt : '}' ∉ t := (keep_eq_none_iff t).mp ht
      by_cases ha : a = '}'
      · subst ha; simp [keepThroughLastBrace, ht]
      · have hne : ¬('}' = a) := fun hEq => ha hEq.symm
        simp [keepThroughLastBrace, ht, ha, hnt, hne]
    · have hmem : '}' ∈ t := by
        by_contra hn
        rw [(keep_eq_none_iff t).mpr hn] at ht; cases ht
      simp [keepThroughLastBrace, ht, List.mem_cons, hmem]

theorem keep_stripBack : ∀ l : List Char,
    keepThroughLastBrace (stripBack l) = keepThroughLastBrace l
  | [] => rfl
  | a :: t => by
    rcases ht : stripBack t with _ | ⟨b, u⟩
    · have hts : ∀ c ∈ t, c.isWhitespace = true := (stripBack_eq_nil_iff t).mp ht
      have hnt : '}' ∉ t := fun hm => absurd (hts _ hm) (by decide)
      have hkt : keepThroughLastBrace t = Option.none := (keep_eq_none_iff t).mpr hnt
      by_cases ha : a.isWhitespace = true
      · have hane : ¬(a = '}') := fun hEq => absurd (hEq ▸ ha) (by decide)
        simp [stripBack, ht, ha, keepThroughLastBrace, hkt, hane]
      · simp [stripBack, ht, ha, keepThroughLastBrace, hkt]
    · have IH := keep_stripBack t
      rw [ht] at IH
      have e1 : keepThroughLastBrace (a :: b :: u) =
          match keepThroughLastBrace (b :: u) with
          | some r => some (a :: r)
          | Option.none => if a = '}' then some [a] else Option.none := rfl
      have e2 : keepThroughLastBrace (a :: t) =
          match keepThroughLastBrace t with
          | some r => some (a :: r)
          | Option.none => if a = '}' then some [a] else Option.none := rfl
      simp only [stripBack, ht]
      rw [e1, e2, IH]

theorem keep_append_no_close {post : List Char} (hpost : '}' ∉ post) :
    ∀ l : List Char, keepThroughLastBrace (l ++ post) = keepThroughLastBrace l
  | [] => by
    have h := (keep_eq_none_iff post).mpr hpost
    simpa using h
  | a :: t => by
    have IH := keep_append_no_close hpost t
    have e1 : keepThroughLastBrace (a :: (t ++ post)) =
        match keepThroughLastBrace (t ++ post) with
        | some r => some (a :: r)
        | Option.none => if a = '}' then some [a] else Option.none := rfl
    have e2 : keepThroughLastBrace (a :: t) =
        match keepThroughLastBrace t with
        | some r => some (a :: r)
        | Option.none => if a = '}' then some [a] else Option.none := rfl
    show keepThroughLastBrace (a :: (t ++ post)) = keepThroughLastBrace (a :: t)
    rw [e1, e2, IH]

theorem keep_snoc_close : ∀ z : List Char,
    keepThroughLastBrace (z ++ ['}']) = some (z ++ ['}'])
  | [] => by simp [keepThroughLastBrace]
  | a :: z => by
    have IH := keep_snoc_close z
    have e1 : keepThroughLastBrace (a :: (z ++ ['}'])) =
        match keepThroughLastBrace (z ++ ['}']) with
        | some r => some (a :: r)
        | Option.none => if a = '}' then some [a] else Option.none := rfl
    show keepThroughLastBrace (a :: (z ++ ['}'])) = some ((a :: z) ++ ['}'])
    rw [e1, IH]
    rfl

theorem keep_spec : ∀ l r : List Char, keepThroughLastBrace l = some r →
    ∃ rest r0, l = r ++ rest ∧ r = r0 ++ ['}']
  | [], r => by intro h; cases h
  | a :: t, r => by
    intro h
    have e1 : keepThroughLastBrace (a :: t) =
        match keepThroughLastBrace t with
        | some r1 => some (a :: r1)
        | Option.none => if a = '}' then some [a] else Option.none := rfl
    rcases ht : keepThroughLastBrace t with _ | r1
    · rw [e1, ht] at h
      by_cases ha : a = '}'
      · subst ha
        simp only [if_pos rfl] at h
        rcases Option.some.inj h with rfl
        exact ⟨t, [], rfl, rfl⟩
      · rw [if_neg ha] at h; cases h
    · rw [e1, ht] at h
      rcases Option.some.inj h with rfl
      rcases keep_spec t r1 ht with ⟨rest, r0, hteq, hr1⟩
      exact ⟨rest, a :: r0, by rw [List.cons_append, ← hteq], by rw [List.cons_append, ← hr1]⟩

theorem ws_not_openBrace (a : Char) (h : a.isWhitespace = true) : (a != '{') = true := by
  by_cases he : a = '{'
  · subst he; exact absurd h (by decide)
  · simpa using he

theorem extractCore_pyStrip (l : List Char) :
    extractCore (pyStrip l) = extractCore l := by
  unfold extractCore pyStrip
  rw [dropWhile_stripBack _ ws_not_openBrace,
    dropWhile_dropWhile_imp _ _ ws_not_openBrace, keep_stripBack]

theorem extractCore_prose {pre post : List Char} (mid : List Char)
    (hpre : '{' ∉ pre) (hpost : '}' ∉ post) :
    extractCore (pre ++ ('{' :: mid ++ ['}']) ++ post) = '{' :: mid ++ ['}'] := by
  have hpre2 : ∀ a ∈ pre, (a != '{') = true := by
    intro a ha
    have hne : a ≠ '{' := fun hEq => hpre (hEq ▸ ha)
    simpa using hne
  unfold extractCore
  rw [List.append_assoc, dropWhile_append_all _ pre hpre2]
  have hstop : List.dropWhile (fun c => c != '{') (('{' :: mid ++ ['}']) ++ post)
      = ('{' :: mid ++ ['}']) ++ post := by
    simp [List.dropWhile_cons]
  rw [hstop, keep_append_no_close hpost]
  have hk : keepThroughLastBrace ('{' :: mid ++ ['}']) = some ('{' :: mid ++ ['}']) := by
    have h2 := keep_snoc_close ('{' :: mid)
    simpa using h2
  rw [hk]

theorem extractBraced_prose {pre post : List Char} (mid : List Char)
    (hpre : '{' ∉ pre) (hpost : '}' ∉ post) :
    extractBraced (String.mk (pre ++ ('{' :: mid ++ ['}']) ++ post)) =
      some (String.mk ('{' :: mid ++ ['}'])) := by
  unfold extractBraced
  have hdata : (String.mk (pre ++ ('{' :: mid ++ ['}']) ++ post)).data
      = pre ++ ('{' :: mid ++ ['}']) ++ post := rfl
  rw [hdata, extractCore_pyStrip, extractCore_prose mid hpre hpost]
  have hlen : 2 ≤ ('{' :: mid ++ ['}']).length := by
    simp [List.length_append]
  rw [if_pos hlen]

theorem dropWhile_head_false (p : Char → Bool) :
    ∀ (l : List Char) (c : Char) (w : List Char),
      l.dropWhile p = c :: w → p c = false
  | [], c, w => fun h => by cases h
  | a :: t, c, w => fun h => by
    rw [List.dropWhile_cons] at h
    split at h
    · exact dropWhile_head_false p t c w h
    · injection h with h1 h2
      subst h1
      rename_i hpa
      cases hb : p a with
      | true => exact absurd hb hpa
      | false => rfl

theorem extractBraced_some_pair {s : String} {e : String}
    (h : extractBraced s = some e) : hasBracePair s.data := by
  unfold extractBraced at h
  rw [extractCore_pyStrip] at h
  split at h
  case isFalse => cases h
  case isTrue hl =>
    rcases hk : keepThroughLastBrace (s.data.dropWhile (fun c => c != '{')) with _ | r
    · exfalso
      have hnil : extractCore s.data = [] := by unfold extractCore; rw [hk]
      rw [hnil] at hl
      exact absurd hl (by decide)
    · have hce : extractCore s.data = r := by unfold extractCore; rw [hk]
      rcases keep_spec _ _ hk with ⟨rest, r0, hteq, hr0⟩
      rcases r0 with _ | ⟨c, r0t⟩
      · exfalso
        rw [hce, hr0] at hl
        exact absurd hl (by decide)
      · have hr : r = c :: (r0t ++ ['}']) := by rw [hr0]; rfl
        have hthead : s.data.dropWhile (fun c => c != '{') = c :: (r0t ++ ['}'] ++ rest) := by
          rw [hteq, hr]; simp [List.append_assoc]
        have hcfalse : (c != '{') = false :=
          dropWhile_head_false (fun x => x != '{') s.data c (r0t ++ ['}'] ++ rest) hthead
        have hcbrace : c = '{' := by
          cases hcc : c == '{' with
          | true => exact eq_of_beq hcc
          | false => rw [bne, hcc] at hcfalse; cases hcfalse
        have hsplit : s.data.takeWhile (fun c => c != '{') ++
            s.data.dropWhile (fun c => c != '{') = s.data :=
          List.takeWhile_append_dropWhile (fun c => c != '{') s.data
        refine ⟨s.data.takeWhile (fun c => c != '{'), r0t, rest, ?_⟩
        conv_lhs => rw [← hsplit]
        rw [hthead, hcbrace]
        simp

theorem hasPair_mem {l : List Char} (h : hasBracePair l) : '{' ∈ l := by
  rcases h with ⟨l1, l2, l3, rfl⟩
  simp

theorem extractBraced_none_of_no_pair {s : String} (h : ¬ hasBracePair s.data) :
    extractBraced s = Option.none := by
  rcases he : extractBraced s with _ | e
  · rfl
  · exact absurd (extractBraced_some_pair he) h

theorem parsePhase_none_some {jp : String → Option PyVal} {full ext : String}
    (hfull : full ≠ "") (hext : extractBraced full = some ext) :
    parsePhase jp Option.none full =
      (match (jp ext).bind validateFinalCrewOutput with
       | some r => successResp r
       | Option.none => Response.error 500 (outputSchemaDetail ext)) := by
  have e : parsePhase jp Option.none full =
      (if full = "" then Response.error 500 (notInstanceDetail full)
       else match extractBraced full with
         | some x =>
           match (jp x).bind validateFinalCrewOutput with
           | some r => successResp r
           | Option.none => Response.error 500 (outputSchemaDetail x)
         | Option.none => Response.error 500 (outputFormatDetail full)) := rfl
  rw [e, if_neg hfull, hext]

theorem parsePhase_none_noext {jp : String → Option PyVal} {full : String}
    (hfull : full ≠ "") (hext : extractBraced full = Option.none) :
    parsePhase jp Option.none full = Response.error 500 (outputFormatDetail full) := by
  have e : parsePhase jp Option.none full =
      (if full = "" then Response.error 500 (notInstanceDetail full)
       else match extractBraced full with
         | some x =>
           match (jp x).bind validateFinalCrewOutput with
           | some r => successResp r
           | Option.none => Response.error 500 (outputSchemaDetail x)
         | Option.none => Response.error 500 (outputFormatDetail full)) := rfl
  rw [e, if_neg hfull, hext]

theorem string_data_append (a b : String) : (a ++ b).data = a.data ++ b.data := rfl

theorem string_eq_of_data {a b : String} (h : a.data = b.data) : a = b := by
  cases a with
  | mk d1 =>
    cases b with
    | mk d2 =>
      cases h
      rfl

theorem str_append_left_cancel {a b c : String} (h : a ++ b = a ++ c) : b = c := by
  apply string_eq_of_data
  have hd := congrArg String.data h
  rw [string_data_append, string_data_append] at hd
  exact List.append_cancel_left hd

theorem string_append_empty (s : String) : s ++ "" = s := by
  apply string_eq_of_data
  rw [string_data_append]
  show s.data ++ [] = s.data
  exact List.append_nil _

theorem mem_fallbackSkills {text s : String} :
    s ∈ fallbackSkills text ↔
      s ∈ common_skills ∧ lowerChars s.data <:+: lowerChars text.data := by
  unfold fallbackSkills
  rw [List.mem_insertionSort, List.mem_dedup, List.mem_filter]
  unfold containsSkill
  simp [decide_eq_true_eq]

theorem charsLe_total : ∀ x y : List Char, charsLe x y = true ∨ charsLe y x = true
  | [], _ => Or.inl rfl
  | _ :: _, [] => Or.inr rfl
  | a :: xs, b :: ys => by
    by_cases h1 : a.toNat < b.toNat
    · left; simp [charsLe, h1]
    · by_cases h2 : b.toNat < a.toNat
      · right; simp [charsLe, h2]
      · rcases charsLe_total xs ys with h | h
        · left; simp [charsLe, h1, h2, h]
        · right; simp [charsLe, h2, h1, h]

theorem charsLe_trans : ∀ x y z : List Char,
    charsLe x y = true → charsLe y z = true → charsLe x z = true
  | [], _, _ => fun _ _ => rfl
  | _ :: _, [], _ => fun h _ => by cases h
  | _ :: _, _ :: _, [] => fun _ h => by cases h
  | a :: xs, b :: ys, c :: zs => fun hxy hyz => by
    by_cases h1 : a.toNat < b.toNat <;> by_cases h2 : b.toNat < c.toNat
    · have h3 : a.toNat < c.toNat := Nat.lt_trans h1 h2
      simp [charsLe, h3]
    · by_cases h4 : c.toNat < b.toNat
      · simp [charsLe, h2, h4] at hyz
      · have hbc : b.toNat = c.toNat :=
          Nat.le_antisymm (Nat.not_lt.mp h4) (Nat.not_lt.mp h2)
        have h3 : a.toNat < c.toNat := hbc ▸ h1
        simp [charsLe, h3]
    · by_cases h4 : b.toNat < a.toNat
      · simp [charsLe, h1, h4] at hxy
      · have hab : a.toNat = b.toNat :=
          Nat.le_antisymm (Nat.not_lt.mp h4) (Nat.not_lt.mp h1)
        have h3 : a.toNat < c.toNat := hab ▸ h2
        simp [charsLe, h3]
    · by_cases h4 : b.toNat < a.toNat
      · simp [charsLe, h1, h4] at hxy
      · by_cases h5 : c.toNat < b.toNat
        · simp [charsLe, h2, h5] at hyz
        · have hab : a.toNat = b.toNat :=
            Nat.le_antisymm (Nat.not_lt.mp h4) (Nat.not_lt.mp h1)
          have hrec1 : charsLe xs ys = true := by simpa [charsLe, h1, h4] using hxy
          have hrec2 : charsLe ys zs = true := by simpa [charsLe, h2, h5] using hyz
          have h3 : ¬ a.toNat < c.toNat := by rw [hab]; exact h2
          have h4c : ¬ c.toNat < a.toNat := by rw [hab]; exact h5
          simp only [charsLe, h3, h4c, if_false]
          exact charsLe_trans xs ys zs hrec1 hrec2

theorem pyStrLe_isTotal : IsTotal String pyStrLe :=
  ⟨fun a b => charsLe_total a.data b.data⟩

theorem pyStrLe_isTrans : IsTrans String pyStrLe :=
  ⟨fun a b c => charsLe_trans a.data b.data c.data⟩

theorem fallbackSkills_sorted (text : String) :
    List.Sorted pyStrLe (fallbackSkills text) :=
  @List.sorted_insertionSort String pyStrLe _ pyStrLe_isTotal pyStrLe_isTrans _

theorem fallbackSkills_nodup (text : String) : (fallbackSkills text).Nodup :=
  (List.perm_insertionSort _ _).nodup_iff.mpr (List.nodup_dedup _)

theorem resumeLlmPhase_dict (text : String) (d : List (String × PyVal)) :
    resumeLlmPhase text ⟨true, some (PyVal.dict d)⟩ =
      (if pyHasLen (pyGet d "skills" (PyVal.list [])) = true then primaryDict text d
       else runFallback text) := rfl

theorem primaryDict_ne_runFallback (text : String) (d : List (String × PyVal)) :
    primaryDict text d ≠ runFallback text := by
  intro heq
  have hs : PyVal.str "success" = PyVal.str "partial_success" :=
    congrArg (fun l => pyGet l "status" PyVal.none) heq
  injection hs with h1
  exact absurd h1 (by decide)

/-! ### Claim theorems -/

/-- C7: on the fallback path of the Skill & Summary Synthesizer, for
every raw text the returned skills are exactly the subset of the fixed
reference vocabulary whose entries occur case-insensitively (as substrings)
in the text, sorted and deduplicated; the summary equals the fixed sentinel
"LLM extraction failed, basic skills extracted."; and the computation is
deterministic: the same text yields the same result both times. -/
theorem fallback_extraction_contract :
    (∀ text s, s ∈ fallbackSkills text ↔
      s ∈ common_skills ∧ lowerChars s.data <:+: lowerChars text.data) ∧
    (∀ text, List.Sorted pyStrLe (fallbackSkills text)) ∧
    (∀ text, (fallbackSkills text).Nodup) ∧
    (∀ text, pyGet (runFallback text) "resume_summary" PyVal.none
      = PyVal.str "LLM extraction failed, basic skills extracted.") ∧
    (∀ text, pyGet (runFallback text) "skills" PyVal.none
      = PyVal.list ((fallbackSkills text).map PyVal.str)) ∧
    (∀ text, fallbackSkills text = fallbackSkills text) :=
  ⟨fun _ _ => mem_fallbackSkills, fallbackSkills_sorted, fallbackSkills_nodup,
   fun _ => rfl, fun _ => rfl, fun _ => rfl⟩

/-- C7 witness: the contract evaluated on a concrete text. -/
theorem fallback_extraction_contract_witness :
    "Python" ∈ fallbackSkills "We use python and SQL daily" ∧
    List.Sorted pyStrLe (fallbackSkills "We use python and SQL daily") ∧
    fallbackSkills "We use python and SQL daily" = ["Python", "SQL"] :=
  ⟨(fallback_extraction_contract.1 "We use python and SQL daily" "Python").mpr
    ⟨by decide, by decide⟩,
   fallback_extraction_contract.2.1 "We use python and SQL daily",
   by rfl⟩

/-- C10: fallback skill detection tests substring containment, not
whole-word occurrence: a vocabulary skill is reported whenever its
lower-cased name appears anywhere inside the lower-cased text; in
particular a text whose lower-casing contains "javascript" yields both
"Java" and "JavaScript", and a text containing "rapid" yields "API". -/
theorem fallback_substring_containment :
    (∀ text sk, sk ∈ common_skills →
      lowerChars sk.data <:+: lowerChars text.data → sk ∈ fallbackSkills text) ∧
    (∀ text, "javascript".data <:+: lowerChars text.data →
      "Java" ∈ fallbackSkills text ∧ "JavaScript" ∈ fallbackSkills text) ∧
    (∀ text, "rapid".data <:+: lowerChars text.data →
      "API" ∈ fallbackSkills text) := by
  refine ⟨?_, ?_, ?_⟩
  · intro text sk hv hin
    exact mem_fallbackSkills.mpr ⟨hv, hin⟩
  · intro text hjs
    constructor
    · refine mem_fallbackSkills.mpr ⟨by decide, ?_⟩
      have h1 : lowerChars "Java".data <:+: "javascript".data := by decide
      exact h1.trans hjs
    · refine mem_fallbackSkills.mpr ⟨by decide, ?_⟩
      have h1 : lowerChars "JavaScript".data <:+: "javascript".data := by decide
      exact h1.trans hjs
  · intro text hr
    refine mem_fallbackSkills.mpr ⟨by decide, ?_⟩
    have h1 : lowerChars "API".data <:+: "rapid".data := by decide
    exact h1.trans hr

/-- C10 witness: a concrete text containing "javascript" and "rapid". -/
theorem fallback_substring_containment_witness :
    "Java" ∈ fallbackSkills "knows javascript, rapid learner" ∧
    "JavaScript" ∈ fallbackSkills "knows javascript, rapid learner" ∧
    "API" ∈ fallbackSkills "knows javascript, rapid learner" :=
  ⟨(fallback_substring_containment.2.1 "knows javascript, rapid learner" (by decide)).1,
   (fallback_substring_containment.2.1 "knows javascript, rapid learner" (by decide)).2,
   fallback_substring_containment.2.2 "knows javascript, rapid learner" (by decide)⟩

/-- C6 counterexample: a generation output whose `skills` list holds
"Python" twice is returned with the duplicate intact — the primary path
applies no deduplication, so the claim "deduplicated case-sensitively"
fails on this input. -/
theorem primary_skills_not_deduplicated_cex :
    pyGet (resumeLlmPhase "resume text"
        ⟨true, some (PyVal.dict
          [("skills", PyVal.list [PyVal.str "Python", PyVal.str "Python"]),
           ("summary", PyVal.str "Senior dev")])⟩)
      "skills" PyVal.none
      = PyVal.list [PyVal.str "Python", PyVal.str "Python"] ∧
    ¬ (["Python", "Python"] : List String).Nodup :=
  ⟨rfl, by decide⟩

/-- C6 (amended): on the primary path of the Skill & Summary
Synthesizer — reached for a decoded JSON object whose `skills` value is
sized, so the `len(found_skills)` logging call succeeds — the returned
skills are the generated `skills` value exactly as returned — verbatim,
with no deduplication or other normalization applied by the stage — and
the summary is the generated `summary` used verbatim (with the `.get`
defaults when the keys are absent); a decoded object whose `skills` value
is not sized (null/number/bool) raises `TypeError` at the logging call
(crew_setup.py:75) and diverts to the fallback instead. -/
theorem primary_path_verbatim :
    (∀ (text : String) (d : List (String × PyVal)),
      pyHasLen (pyGet d "skills" (PyVal.list [])) = true →
      resumeLlmPhase text ⟨true, some (PyVal.dict d)⟩ = primaryDict text d) ∧
    (∀ (text : String) (d : List (String × PyVal)),
      pyGet (primaryDict text d) "skills" PyVal.none
        = pyGet d "skills" (PyVal.list [])) ∧
    (∀ (text : String) (d : List (String × PyVal)),
      pyGet (primaryDict text d) "resume_summary" PyVal.none
        = pyGet d "summary" (PyVal.str "No summary provided.")) ∧
    (∀ (text : String) (d : List (String × PyVal)),
      pyGet (primaryDict text d) "status" PyVal.none = PyVal.str "success") ∧
    (∀ (text : String) (d : List (String × PyVal)),
      pyHasLen (pyGet d "skills" (PyVal.list [])) = false →
      resumeLlmPhase text ⟨true, some (PyVal.dict d)⟩ = runFallback text) := by
  refine ⟨?_, fun _ _ => rfl, fun _ _ => rfl, fun _ _ => rfl, ?_⟩
  · intro text d h
    rw [resumeLlmPhase_dict, if_pos h]
  · intro text d h
    have hne : ¬ pyHasLen (pyGet d "skills" (PyVal.list [])) = true := by
      rw [h]; decide
    rw [resumeLlmPhase_dict, if_neg hne]

/-- C6 witness: a decoded dict with a sized skills list takes the primary
path; one with a null skills value diverts to the fallback. -/
theorem primary_path_verbatim_witness :
    resumeLlmPhase "cv" ⟨true, some (PyVal.dict [("skills", PyVal.list [PyVal.str "Go"])])⟩
      = primaryDict "cv" [("skills", PyVal.list [PyVal.str "Go"])] ∧
    resumeLlmPhase "cv" ⟨true, some (PyVal.dict [("skills", PyVal.none)])⟩
      = runFallback "cv" :=
  ⟨primary_path_verbatim.1 "cv" [("skills", PyVal.list [PyVal.str "Go"])] rfl,
   primary_path_verbatim.2.2.2.2 "cv" [("skills", PyVal.none)] rfl⟩

/-- C2 counterexample: a generation response that decodes to a valid JSON
object *missing the required fields* does NOT trigger the fallback: the
stage returns the primary-path dict (status "success", `skills` defaulted
to `[]`), not the fallback dict — so "missing required fields" is not a
fallback trigger. -/
theorem missing_fields_no_fallback_cex :
    resumeLlmPhase "resume body" ⟨true, some (PyVal.dict [])⟩
      = primaryDict "resume body" [] ∧
    pyGet (primaryDict "resume body" []) "status" PyVal.none = PyVal.str "success" ∧
    pyGet (primaryDict "resume body" []) "skills" PyVal.none = PyVal.list [] ∧
    PyVal.str "success" ≠ PyVal.str "partial_success" :=
  ⟨rfl, rfl, rfl, by intro h; injection h with h1; exact absurd h1 (by decide)⟩

/-- C2 (amended): the Skill & Summary Synthesizer takes its
deterministic fallback path exactly when the generation call fails, the
response is not parseable JSON, the decoded value is not a JSON object, or
the decoded object's `skills` value is not sized — null, a number or a
boolean — so that the `len(found_skills)` logging call at crew_setup.py:75
raises `TypeError` inside the `try`; a decoded *object missing the
required fields* takes the primary path with `.get` defaults instead. On
the fallback path the stage always returns a valid profile — status
"partial_success", the keyword-scan skills (possibly empty), never an
error — and the fallback outcome is observably distinct from the primary
outcome via the status flag. -/
theorem synthesizer_fallback_characterization :
    (∀ text gen, resumeLlmPhase text gen = runFallback text ↔
      (gen.callOk = false ∨ isDictVal gen.parsed = false ∨
       ∃ d, gen.parsed = some (PyVal.dict d) ∧
         pyHasLen (pyGet d "skills" (PyVal.list [])) = false)) ∧
    (∀ text, pyGet (runFallback text) "status" PyVal.none
      = PyVal.str "partial_success") ∧
    (∀ text, pyGet (runFallback text) "skills" PyVal.none
      = PyVal.list ((fallbackSkills text).map PyVal.str)) ∧
    (∀ text, pyLookup (runFallback text) "error" = Option.none) ∧
    (∀ text d, pyGet (primaryDict text d) "status" PyVal.none = PyVal.str "success") ∧
    PyVal.str "partial_success" ≠ PyVal.str "success" := by
  refine ⟨?_, fun _ => rfl, fun _ => rfl, fun _ => rfl, fun _ _ => rfl, ?_⟩
  · intro text gen
    rcases gen with ⟨ok, parsed⟩
    cases ok with
    | false => simp [resumeLlmPhase]
    | true =>
      cases parsed with
      | none => simp [resumeLlmPhase, isDictVal]
      | some v =>
        cases v with
        | dict d =>
          rw [resumeLlmPhase_dict]
          by_cases hL : pyHasLen (pyGet d "skills" (PyVal.list [])) = true
          · rw [if_pos hL]
            constructor
            · intro heq
              exact absurd heq (primaryDict_ne_runFallback text d)
            · intro hor
              rcases hor with h | h | ⟨d2, hd2, hL2⟩
              · exact Bool.noConfusion h
              · exact Bool.noConfusion h
              · have hd3 : (some (PyVal.dict d) : Option PyVal)
                    = some (PyVal.dict d2) := hd2
                have h4 := Option.some.inj hd3
                injection h4 with h5
                subst h5
                rw [hL2] at hL
                exact Bool.noConfusion hL
          · have hLf : pyHasLen (pyGet d "skills" (PyVal.list [])) = false := by
              cases hx : pyHasLen (pyGet d "skills" (PyVal.list [])) with
              | true => exact absurd hx hL
              | false => rfl
            rw [if_neg hL]
            exact iff_of_true rfl (Or.inr (Or.inr ⟨d, rfl, hLf⟩))
        | none => simp [resumeLlmPhase, isDictVal]
        | str s => simp [resumeLlmPhase, isDictVal]
        | list xs => simp [resumeLlmPhase, isDictVal]
        | other => simp [resumeLlmPhase, isDictVal]
  · intro h; injection h with h1; exact absurd h1 (by decide)

/-- C2 witness: the characterization at concrete generation outcomes — a
failed call falls back, a decoded object with a null `skills` value falls
back, and a decoded object with empty-but-sized fields does not. -/
theorem synthesizer_fallback_characterization_witness :
    resumeLlmPhase "cv text" ⟨false, Option.none⟩ = runFallback "cv text" ∧
    resumeLlmPhase "cv text" ⟨true, some (PyVal.dict [("skills", PyVal.none)])⟩
      = runFallback "cv text" ∧
    ¬ (resumeLlmPhase "cv text"
        ⟨true, some (PyVal.dict [("skills", PyVal.list []), ("summary", PyVal.str "s")])⟩
      = runFallback "cv text") :=
  ⟨(synthesizer_fallback_characterization.1 "cv text" ⟨false, Option.none⟩).mpr (Or.inl rfl),
   (synthesizer_fallback_characterization.1 "cv text"
      ⟨true, some (PyVal.dict [("skills", PyVal.none)])⟩).mpr
     (Or.inr (Or.inr ⟨[("skills", PyVal.none)], rfl, rfl⟩)),
   fun h => by
     have h2 := (synthesizer_fallback_characterization.1 "cv text"
       ⟨true, some (PyVal.dict [("skills", PyVal.list []), ("summary", PyVal.str "s")])⟩).mp h
     rcases h2 with h3 | h3 | ⟨d2, hd2, hL2⟩
     · exact Bool.noConfusion h3
     · exact Bool.noConfusion h3
     · have hd3 : (some (PyVal.dict [("skills", PyVal.list []), ("summary", PyVal.str "s")])
           : Option PyVal) = some (PyVal.dict d2) := hd2
       have h4 := Option.some.inj hd3
       injection h4 with h5
       subst h5
       exact Bool.noConfusion hL2⟩

/-- C5: `extract` fails with the read-error dict when the payload is
not a parseable PDF, fails with the empty-document error (distinct from a
read error whose message differs from the fixed sentinel) when the
concatenated page text is empty or whitespace-only, and on success hands a
non-empty text on to the LLM phase; pages yielding no text contribute an
empty string rather than an error. -/
theorem extract_error_contract :
    (∀ msg gen, ResumeProcessingTool.run (Document.unreadable msg) gen
      = pdfErrorDict msg) ∧
    (∀ ps gen, pyStrip (concatPages ps).data = [] →
      ResumeProcessingTool.run (Document.pages ps) gen
        = pdfErrorDict "No readable text found in PDF.") ∧
    (∀ msg ps gen gen2, msg ≠ "No readable text found in PDF." →
      pyStrip (concatPages ps).data = [] →
      ResumeProcessingTool.run (Document.unreadable msg) gen
        ≠ ResumeProcessingTool.run (Document.pages ps) gen2) ∧
    (∀ ps gen, ¬ pyStrip (concatPages ps).data = [] →
      ResumeProcessingTool.run (Document.pages ps) gen
          = resumeLlmPhase (concatPages ps) gen ∧
      pyGet (ResumeProcessingTool.run (Document.pages ps) gen)
          "extracted_text" PyVal.none = PyVal.str (concatPages ps) ∧
      pyLookup (ResumeProcessingTool.run (Document.pages ps) gen) "error"
          = Option.none ∧
      concatPages ps ≠ "") ∧
    (∀ a b, concatPages (a ++ Option.none :: b) = concatPages (a ++ b)) := by
  have hrun : ∀ ps gen, ¬ pyStrip (concatPages ps).data = [] →
      ResumeProcessingTool.run (Document.pages ps) gen
        = resumeLlmPhase (concatPages ps) gen := by
    intro ps gen h
    simp only [ResumeProcessingTool.run]
    rw [if_neg h]
  have hfields : ∀ text gen,
      pyGet (resumeLlmPhase text gen) "extracted_text" PyVal.none = PyVal.str text ∧
      pyLookup (resumeLlmPhase text gen) "error" = Option.none := by
    intro text gen
    rcases gen with ⟨ok, parsed⟩
    cases ok with
    | false => exact ⟨rfl, rfl⟩
    | true =>
      cases parsed with
      | none => exact ⟨rfl, rfl⟩
      | some v =>
        cases v with
        | dict d =>
          rw [resumeLlmPhase_dict]
          by_cases hL : pyHasLen (pyGet d "skills" (PyVal.list [])) = true
          · rw [if_pos hL]; exact ⟨rfl, rfl⟩
          · rw [if_neg hL]; exact ⟨rfl, rfl⟩
        | none => exact ⟨rfl, rfl⟩
        | str s => exact ⟨rfl, rfl⟩
        | list xs => exact ⟨rfl, rfl⟩
        | other => exact ⟨rfl, rfl⟩
  refine ⟨fun _ _ => rfl, ?_, ?_, ?_, ?_⟩
  · intro ps gen h
    simp only [ResumeProcessingTool.run]
    rw [if_pos h]
  · intro msg ps gen gen2 hmsg hws heq
    have h1 : ResumeProcessingTool.run (Document.unreadable msg) gen
        = pdfErrorDict msg := rfl
    have h2 : ResumeProcessingTool.run (Document.pages ps) gen2
        = pdfErrorDict "No readable text found in PDF." := by
      simp only [ResumeProcessingTool.run]
      rw [if_pos hws]
    rw [h1, h2] at heq
    have h3 : PyVal.str ("Failed to read or process PDF: " ++ msg)
        = PyVal.str ("Failed to read or process PDF: " ++ "No readable text found in PDF.") :=
      congrArg (fun l => pyGet l "error" PyVal.none) heq
    injection h3 with h4
    exact hmsg (str_append_left_cancel h4)
  · intro ps gen h
    refine ⟨hrun ps gen h, ?_, ?_, ?_⟩
    · rw [hrun ps gen h]
      exact (hfields (concatPages ps) gen).1
    · rw [hrun ps gen h]
      exact (hfields (concatPages ps) gen).2
    · intro ht
      apply h
      rw [ht]
      rfl
  · intro a b
    unfold concatPages
    rw [List.foldl_append, List.foldl_append]
    simp only [List.foldl_cons, Option.getD_none]
    rw [string_append_empty]

/-- C5 witness: the contract at concrete documents. -/
theorem extract_error_contract_witness :
    ResumeProcessingTool.run (Document.unreadable "bad xref table") ⟨true, Option.none⟩
      = pdfErrorDict "bad xref table" ∧
    ResumeProcessingTool.run (Document.pages [some " ", Option.none]) ⟨true, Option.none⟩
      = pdfErrorDict "No readable text found in PDF." ∧
    ResumeProcessingTool.run (Document.unreadable "bad xref table") ⟨true, Option.none⟩
      ≠ ResumeProcessingTool.run (Document.pages [some " "]) ⟨true, Option.none⟩ ∧
    concatPages [some "a", Option.none, some "b"]
      = concatPages [some "a", some "b"] :=
  ⟨extract_error_contract.1 "bad xref table" ⟨true, Option.none⟩,
   extract_error_contract.2.1 [some " ", Option.none] ⟨true, Option.none⟩ rfl,
   extract_error_contract.2.2.1 "bad xref table" [some " "] ⟨true, Option.none⟩
     ⟨true, Option.none⟩ (by decide) rfl,
   extract_error_contract.2.2.2.2 [some "a"] [some "b"]⟩

/-- C3, modelled from the spec (`JobFilteringTool` is not among the
sources): `match` is the order-preserving filter of the catalog by
non-empty case-insensitive skill intersection, capped at the first 7
qualifying postings after the filter; a posting qualifies iff some profile
skill equals some required skill up to lower-casing; the output is a
sublist of the catalog (stable, no re-ranking) of length at most 7; and an
empty skill profile yields an empty result, never an error. -/
theorem job_matcher_contract :
    (∀ skills catalog, JobFilteringTool.run skills catalog
        = (catalog.filter (qualifies skills)).take 7) ∧
    (∀ skills j, qualifies skills j = true ↔
        ∃ s ∈ skills, ∃ r ∈ j.skills_required, lowerString s = lowerString r) ∧
    (∀ skills catalog, (JobFilteringTool.run skills catalog).Sublist catalog) ∧
    (∀ skills catalog, (JobFilteringTool.run skills catalog).length ≤ 7) ∧
    (∀ catalog, JobFilteringTool.run [] catalog = []) := by
  refine ⟨fun _ _ => rfl, ?_, ?_, ?_, ?_⟩
  · intro skills j
    unfold qualifies
    rw [List.any_eq_true]
    constructor
    · rintro ⟨r, hr, hc⟩
      have hmem : lowerString r ∈ skills.map lowerString := List.elem_iff.mp hc
      rcases List.mem_map.mp hmem with ⟨s, hs, hls⟩
      exact ⟨s, hs, r, hr, hls⟩
    · rintro ⟨s, hs, r, hr, hls⟩
      refine ⟨r, hr, ?_⟩
      have hmem : lowerString r ∈ skills.map lowerString :=
        List.mem_map.mpr ⟨s, hs, hls⟩
      exact List.elem_iff.mpr hmem
  · intro skills catalog
    exact (List.take_sublist 7 _).trans (List.filter_sublist catalog)
  · intro skills catalog
    exact le_trans (List.length_take_le 7 _) (le_refl 7)
  · intro catalog
    unfold JobFilteringTool.run
    have hnil : catalog.filter (qualifies []) = [] := by
      rw [List.filter_eq_nil_iff]
      intro j hj
      unfold qualifies
      simp
    rw [hnil]
    rfl

/-- C3 witness: empty skills yield an empty result on a non-empty catalog,
and matching is case-insensitive ("python" matches a posting requiring
"Python"). -/
theorem job_matcher_contract_witness :
    JobFilteringTool.run [] [jobA] = [] ∧
    qualifies ["python"] jobA = true ∧
    JobFilteringTool.run ["python"] [jobA] = [jobA] :=
  ⟨job_matcher_contract.2.2.2.2 [jobA],
   (job_matcher_contract.2.1 ["python"] jobA).mpr
     ⟨"python", by decide, "Python", by decide, by decide⟩,
   by rfl⟩

/-- C4: the guidance response handling: (a) a raw response made of
brace-free prose around one brace-delimited `{...}` object yields exactly
that object from the extraction step, and parses successfully whenever the
object decodes and validates; (b) a non-empty response containing no
brace-delimited substring fails with the output-format error (the
`OutputFormatError` of the spec); (c) an extracted substring that fails to
decode or to validate fails with the output-schema error carrying that
substring (the `OutputSchemaError`); and (d) the modelled validator
rejects an empty `potential_job_titles`, so every validated guidance has a
non-empty title list. -/
theorem guidance_output_handling :
    (∀ (pre mid post : List Char), '{' ∉ pre → '}' ∉ post →
      extractBraced (String.mk (pre ++ ('{' :: mid ++ ['}']) ++ post))
        = some (String.mk ('{' :: mid ++ ['}']))) ∧
    (∀ (jp : String → Option PyVal) (pre mid post : List Char) (r : FinalCrewOutput),
      '{' ∉ pre → '}' ∉ post →
      (jp (String.mk ('{' :: mid ++ ['}']))).bind validateFinalCrewOutput = some r →
      parsePhase jp Option.none (String.mk (pre ++ ('{' :: mid ++ ['}']) ++ post))
        = successResp r) ∧
    (∀ (jp : String → Option PyVal) (full : String),
      full ≠ "" → ¬ hasBracePair full.data →
      parsePhase jp Option.none full = Response.error 500 (outputFormatDetail full)) ∧
    (∀ (jp : String → Option PyVal) (full ext : String),
      extractBraced full = some ext →
      (jp ext).bind validateFinalCrewOutput = Option.none →
      parsePhase jp Option.none full = Response.error 500 (outputSchemaDetail ext)) ∧
    (∀ (v : PyVal) (g : CareerGuidance), validateGuidance v = some g →
      g.potential_job_titles ≠ []) := by
  refine ⟨?_, ?_, ?_, ?_, ?_⟩
  · intro pre mid post hpre hpost
    exact extractBraced_prose mid hpre hpost
  · intro jp pre mid post r hpre hpost hv
    have hne : String.mk (pre ++ ('{' :: mid ++ ['}']) ++ post) ≠ "" := by
      intro h0
      have h1 : pre ++ ('{' :: mid ++ ['}']) ++ post = ([] : List Char) :=
        congrArg String.data h0
      simp at h1
    rw [parsePhase_none_some hne (extractBraced_prose mid hpre hpost), hv]
  · intro jp full hfull hnp
    exact parsePhase_none_noext hfull (extractBraced_none_of_no_pair hnp)
  · intro jp full ext hext hval
    have hfull : full ≠ "" := by
      intro h0
      rw [h0] at hext
      exact Option.noConfusion hext
    rw [parsePhase_none_some hfull hext, hval]
  · intro v g hv
    cases v with
    | dict d =>
      have hv2 : (match pyStrField d "career_path_suggestion",
          pyStrField d "relevant_skills_gap", pyStrField d "actionable_steps",
          pyStrListField d "potential_job_titles" with
        | some cps, some rsg, some acts, some pjt =>
          if pjt = [] then Option.none
          else some (⟨cps, rsg, acts, pjt⟩ : CareerGuidance)
        | _, _, _, _ => Option.none) = some g := hv
      rcases h1 : pyStrField d "career_path_suggestion" with _ | cps <;> rw [h1] at hv2
      case none => exact Option.noConfusion hv2
      rcases h2 : pyStrField d "relevant_skills_gap" with _ | rsg <;> rw [h2] at hv2
      case none => exact Option.noConfusion hv2
      rcases h3 : pyStrField d "actionable_steps" with _ | acts <;> rw [h3] at hv2
      case none => exact Option.noConfusion hv2
      rcases h4 : pyStrListField d "potential_job_titles" with _ | pjt <;> rw [h4] at hv2
      case none => exact Option.noConfusion hv2
      have hv3 : (if pjt = [] then Option.none
          else some (⟨cps, rsg, acts, pjt⟩ : CareerGuidance)) = some g := hv2
      by_cases h5 : pjt = []
      · rw [if_pos h5] at hv3
        exact Option.noConfusion hv3
      · rw [if_neg h5] at hv3
        rcases Option.some.inj hv3 with rfl
        exact h5
    | none => exact Option.noConfusion hv
    | str s => exact Option.noConfusion hv
    | list xs => exact Option.noConfusion hv
    | other => exact Option.noConfusion hv

/-- C4 witness: prose-wrapped extraction, a parse success, a format
failure, and a schema failure, each at a concrete response. -/
theorem guidance_output_handling_witness :
    extractBraced (String.mk ("Here is the result: ".data ++
        ('{' :: "ok: 1".data ++ ['}']) ++ " hope this helps".data))
      = some (String.mk ('{' :: "ok: 1".data ++ ['}'])) ∧
    parsePhase (fun _ => some goodFinalPy) Option.none
        (String.mk ("Sure! ".data ++ ('{' :: "g: 1".data ++ ['}']) ++ " done".data))
      = successResp goodFinal ∧
    parsePhase (fun _ => Option.none) Option.none "no structured output"
      = Response.error 500 (outputFormatDetail "no structured output") ∧
    parsePhase (fun _ => some (PyVal.dict [])) Option.none "text {bad: 1} text"
      = Response.error 500 (outputSchemaDetail "{bad: 1}") ∧
    (⟨"a", "b", "c", ["t1", "t2", "t3", "t4", "t5"]⟩ : CareerGuidance).potential_job_titles
      ≠ [] :=
  ⟨guidance_output_handling.1 "Here is the result: ".data "ok: 1".data
     " hope this helps".data (by decide) (by decide),
   guidance_output_handling.2.1 (fun _ => some goodFinalPy) "Sure! ".data "g: 1".data
     " done".data goodFinal (by decide) (by decide) (by rfl),
   guidance_output_handling.2.2.1 (fun _ => Option.none) "no structured output"
     (by decide) (fun hp => absurd (hasPair_mem hp) (by decide)),
   guidance_output_handling.2.2.2.1 (fun _ => some (PyVal.dict [])) "text {bad: 1} text"
     "{bad: 1}" (by rfl) (by rfl),
   guidance_output_handling.2.2.2.2 goodGuidancePy
     ⟨"a", "b", "c", ["t1", "t2", "t3", "t4", "t5"]⟩ (by rfl)⟩

/-- C1 counterexample: a run whose own `filtered_jobs_list` is empty (empty
catalog) but whose generation call echoes `[jobA]` in `matched_jobs`. The
success response carries the echoed `[jobA]`, not the caller's `[]` — so
the echoed field is NOT discarded in favor of the caller's matches. -/
theorem matched_jobs_not_caller_matches_cex :
    (process_career_request (fun _ => Option.none) env1).response
      = Response.success "Career guidance generated successfully." guid0 [jobA] ∧
    filteredJobsOf env1 = [] ∧
    [jobA] ≠ ([] : List JobPosting) :=
  ⟨rfl, rfl, by simp⟩

/-- C1 (amended): the `matchedJobs` of every successful guidance result
equals the `matched_jobs` field of the validated generation output itself
(the pydantic object returned directly, or the one parsed and validated
from the extracted substring); the caller's `matches` argument is not
substituted for it. -/
theorem matched_jobs_echoed_from_generation
    (jp : String → Option PyVal) (fr : Option FinalCrewOutput) (full msg : String)
    (g : CareerGuidance) (mj : List JobPosting)
    (h : parsePhase jp fr full = Response.success msg g mj) :
    ∃ r : FinalCrewOutput, g = r.guidance ∧ mj = r.matched_jobs ∧
      (fr = some r ∨ ∃ ext, extractBraced full = some ext ∧
        (jp ext).bind validateFinalCrewOutput = some r) := by
  cases fr with
  | some r =>
    have h2 : Response.success "Career guidance generated successfully."
        r.guidance r.matched_jobs = Response.success msg g mj := h
    injection h2 with hm hg hmj
    exact ⟨r, hg.symm, hmj.symm, Or.inl rfl⟩
  | none =>
    by_cases hfull : full = ""
    · subst hfull
      have h2 : Response.error 500 (notInstanceDetail "") = Response.success msg g mj := h
      exact Response.noConfusion h2
    · rcases hext : extractBraced full with _ | ext
      · rw [parsePhase_none_noext hfull hext] at h
        exact Response.noConfusion h
      · rw [parsePhase_none_some hfull hext] at h
        rcases hval : (jp ext).bind validateFinalCrewOutput with _ | r
        · rw [hval] at h
          have h2 : Response.error 500 (outputSchemaDetail ext)
              = Response.success msg g mj := h
          exact Response.noConfusion h2
        · rw [hval] at h
          have h2 : Response.success "Career guidance generated successfully."
              r.guidance r.matched_jobs = Response.success msg g mj := h
          injection h2 with hm hg hmj
          exact ⟨r, hg.symm, hmj.symm, Or.inr ⟨ext, rfl, hval⟩⟩

/-- C1 witness: the amended property at a concrete successful run. -/
theorem matched_jobs_echoed_from_generation_witness :
    ∃ r : FinalCrewOutput, guid0 = r.guidance ∧ [jobA] = r.matched_jobs ∧
      ((some fco0 : Option FinalCrewOutput) = some r ∨ ∃ ext,
        extractBraced "" = some ext ∧
        ((fun _ => (Option.none : Option PyVal)) ext).bind validateFinalCrewOutput
          = some r) :=
  matched_jobs_echoed_from_generation (fun _ => Option.none) (some fco0) ""
    "Career guidance generated successfully." guid0 [jobA] rfl

/-- C8: the resume tool's error return has no "status" key (and its other
returns carry "success"/"partial_success"), so the 400 guard of
main.py:102-103 never fires: a run on an unreadable document proceeds to
the guidance kickoff and surfaces the kickoff failure as a 500, instead of
the claimed 400 with no guidance call. -/
theorem resume_error_reaches_guidance_stage :
    (process_career_request (fun _ => Option.none) env8).guidanceCalled = true ∧
    (process_career_request (fun _ => Option.none) env8).response
      = Response.error 500
          "CrewAI execution failed: LLM timeout. Check server logs for detailed LLM errors." ∧
    (∀ doc gen,
      pyGet (ResumeProcessingTool.run doc gen) "status" PyVal.none = PyVal.str "success"
      ∨ pyGet (ResumeProcessingTool.run doc gen) "status" PyVal.none
          = PyVal.str "partial_success"
      ∨ pyGet (ResumeProcessingTool.run doc gen) "status" PyVal.none = PyVal.none) := by
  refine ⟨rfl, rfl, ?_⟩
  intro doc gen
  cases doc with
  | unreadable m => exact Or.inr (Or.inr rfl)
  | pages ps =>
    by_cases h : pyStrip (concatPages ps).data = []
    · refine Or.inr (Or.inr ?_)
      have e : ResumeProcessingTool.run (Document.pages ps) gen
          = pdfErrorDict "No readable text found in PDF." := by
        simp only [ResumeProcessingTool.run]
        rw [if_pos h]
      rw [e]
      rfl
    · have e : ResumeProcessingTool.run (Document.pages ps) gen
          = resumeLlmPhase (concatPages ps) gen := by
        simp only [ResumeProcessingTool.run]
        rw [if_neg h]
      rw [e]
      rcases gen with ⟨ok, parsed⟩
      cases ok with
      | false => exact Or.inr (Or.inl rfl)
      | true =>
        cases parsed with
        | none => exact Or.inr (Or.inl rfl)
        | some v =>
          cases v with
          | dict d =>
            rw [resumeLlmPhase_dict]
            by_cases hL : pyHasLen (pyGet d "skills" (PyVal.list [])) = true
            · rw [if_pos hL]; exact Or.inl rfl
            · rw [if_neg hL]; exact Or.inr (Or.inl rfl)
          | none => exact Or.inr (Or.inl rfl)
          | str s => exact Or.inr (Or.inl rfl)
          | list xs => exact Or.inr (Or.inl rfl)
          | other => exact Or.inr (Or.inl rfl)

/-- C9 counterexample: when copying the upload into the (already created)
temp file raises, `pdf_path` is never assigned, the `finally` block deletes
nothing, and the per-request temp file remains after the request — the
release is not unconditional. -/
theorem temp_leak_on_copy_failure_cex :
    (process_career_request (fun _ => Option.none) env9).tempRemains = true := rfl

/-- C9 (amended): on every run in which the initial copy into the temp
file succeeds (so `pdf_path` was assigned), the temporary file is released
before control returns, on the success path and on every failure path; a
failure during the copy itself, after the file was created, leaks it. -/
theorem temp_released_unless_copy_fails :
    ∀ (jp : String → Option PyVal) (env : Env), env.copyFails = false →
      (process_career_request jp env).tempRemains = false := by
  intro jp env h
  simp only [process_career_request, h]
  rw [if_neg (by decide : ¬ (false = true))]
  split
  · rfl
  · split <;> rfl

/-- C9 witness: a concrete failing run (the kickoff output has no JSON)
still releases the temp file. -/
theorem temp_released_unless_copy_fails_witness :
    (process_career_request (fun _ => Option.none) env9b).tempRemains = false :=
  temp_released_unless_copy_fails (fun _ => Option.none) env9b rfl
